import Mathlib

/-!
Verification of the DEM (digital elevation model) pipeline of
`opendm/dem/commands.py`: tile fetching and sorting in `create_dem`,
the windowed median smoother `median_smoothing`, and the per-window
filter `window_filter_2d`.

Rasters are embedded as total functions `ℤ → ℤ → ℤ` (pixel grid to
pixel value); a raster's extent is carried separately as its shape.
The kernel filter itself (scipy's median filter in the source) is kept
abstract: every theorem below quantifies over the filter function, so
the results hold for the concrete median kernel as well.
-/

namespace Img2Space

/-- A raster band: pixel value at (row, column). -/
def Raster : Type := ℤ → ℤ → ℤ

/-- A kernel filter as used by `window_filter_2d`: it receives the height
and width of the array it is applied to, and the array itself.
(In the source this is `functools.partial(ndimage.median_filter, size=9, ...)`.) -/
def Filt : Type := ℤ → ℤ → Raster → Raster

/-- A window `[row_start, col_start, row_end, col_end]` into a raster's pixel
grid, as built by `median_smoothing` out of `numpy.meshgrid`/`dstack`. -/
structure Window where
  rowStart : ℤ
  colStart : ℤ
  rowEnd : ℤ
  colEnd : ℤ
deriving DecidableEq, Repr

/-- Pixel (r, c) lies in window `w` (the half-open box the window denotes). -/
def inWindow (w : Window) (r c : ℤ) : Prop :=
  w.rowStart ≤ r ∧ r < w.rowEnd ∧ w.colStart ≤ c ∧ c < w.colEnd

instance (w : Window) (r c : ℤ) : Decidable (inWindow w r c) :=
  inferInstanceAs (Decidable (_ ∧ _ ∧ _ ∧ _))

/-- The out-of-bounds test of `window_filter_2d`:
`window[0] < 0 or window[1] < 0 or window[2] > shape[0] or window[3] > shape[1]`. -/
def outOfBounds (shape : ℤ × ℤ) (w : Window) : Prop :=
  w.rowStart < 0 ∨ w.colStart < 0 ∨ w.rowEnd > shape.1 ∨ w.colEnd > shape.2

instance (shape : ℤ × ℤ) (w : Window) : Decidable (outOfBounds shape w) :=
  inferInstanceAs (Decidable (_ ∨ _ ∨ _ ∨ _))

/-- `kernel_size // 2` (Python floor division). -/
def halo (kernelSize : ℤ) : ℤ := Int.fdiv kernelSize 2

/-- The expanded (halo) window of `window_filter_2d`:
`[max(0, window[0] - kernel_size // 2), max(0, window[1] - kernel_size // 2),
  min(shape[0], window[2] + kernel_size // 2), min(shape[1], window[3] + kernel_size // 2)]`. -/
def expandedWindow (shape : ℤ × ℤ) (w : Window) (kernelSize : ℤ) : Window :=
  ⟨max 0 (w.rowStart - halo kernelSize),
   max 0 (w.colStart - halo kernelSize),
   min shape.1 (w.rowEnd + halo kernelSize),
   min shape.2 (w.colEnd + halo kernelSize)⟩

/-- `img.read(indexes=1, window=rasterio_window)`: the window's contents as a
fresh array indexed from (0,0). Positions outside the array's extent do not
exist in the numpy array; the embedding maps them to 0. -/
def readWindow (img : Raster) (e : Window) : Raster :=
  fun r c =>
    if 0 ≤ r ∧ r < e.rowEnd - e.rowStart ∧ 0 ≤ c ∧ c < e.colEnd - e.colStart then
      img (e.rowStart + r) (e.colStart + c)
    else 0

/-- The value computed by `window_filter_2d` for the pixels it writes back:
read the expanded window, apply the filter, restore nodata at the positions
that were nodata before filtering (`win_arr[nodata_locs] = nodata`), crop back
to the unexpanded window. `windowVal` is expressed in the output raster's
global coordinates (the write at `window` offsets the cropped array there). -/
def windowVal (shape : ℤ × ℤ) (img : Raster) (nodata : ℤ) (w : Window)
    (kernelSize : ℤ) (filt : Filt) : Raster :=
  let e := expandedWindow shape w kernelSize
  let winArr := readWindow img e
  let filtered := filt (e.rowEnd - e.rowStart) (e.colEnd - e.colStart) winArr
  let restored : Raster := fun r c => if winArr r c = nodata then nodata else filtered r c
  let cropped : Raster := fun r c =>
    restored (r + (w.rowStart - e.rowStart)) (c + (w.colStart - e.colStart))
  fun r c => cropped (r - w.rowStart) (c - w.colStart)

/-- The effect of one `window_filter_2d` call on the output raster: the
unexpanded window region receives the filtered values, everything else keeps
the previous contents of `imgout`. -/
def windowApply (shape : ℤ × ℤ) (img imgout : Raster) (nodata : ℤ) (w : Window)
    (kernelSize : ℤ) (filt : Filt) : Raster :=
  fun r c =>
    if inWindow w r c then windowVal shape img nodata w kernelSize filt r c
    else imgout r c

/-- `window_filter_2d(img, imgout, nodata, window, kernel_size, filter, ...)`:
raises `Window is out of bounds` when the window escapes the raster shape,
otherwise writes the filtered unexpanded window into `imgout` and returns the
resulting raster contents. -/
def window_filter_2d (shape : ℤ × ℤ) (img imgout : Raster) (nodata : ℤ)
    (w : Window) (kernelSize : ℤ) (filt : Filt) : Except String Raster :=
  if outOfBounds shape w then Except.error "Window is out of bounds"
  else Except.ok (windowApply shape img imgout nodata w kernelSize filt)

/-- Ceiling division on naturals (`len(numpy.arange(0, stop, step)) = ⌈stop/step⌉`). -/
def ceilDiv (a b : ℕ) : ℕ := (a + b - 1) / b

/-- `numpy.arange(0, stop, step)` for natural `stop`, `step`. -/
def arange (stop step : ℕ) : List ℕ :=
  (List.range (ceilDiv stop step)).map (fun i => i * step)

/-- The window grid of `median_smoothing`: starts from
`numpy.meshgrid(arange(0, shape[0], ws), arange(0, shape[1], ws))`, end rows
and columns clipped with `numpy.minimum` to the raster shape. The flattening
order of meshgrid enumerates column starts in the outer loop and row starts
in the inner loop. -/
def windowsOf (H W ws : ℕ) : List Window :=
  (arange W ws).flatMap (fun (c : ℕ) =>
    (arange H ws).map (fun (r : ℕ) =>
      ⟨(r : ℤ), (c : ℤ), min ((r : ℤ) + (ws : ℤ)) (H : ℤ), min ((c : ℤ) + (ws : ℤ)) (W : ℤ)⟩))

/-- One window task of a smoothing iteration, as scheduled by
`Parallel(...)(delayed(window_filter_2d)(img, imgout, nodata, window, 9, filt, ...))`:
on success the output raster is updated, a raised exception leaves it as it was. -/
def windowStep (shape : ℤ × ℤ) (img : Raster) (nodata : ℤ) (filt : Filt)
    (acc : Raster) (w : Window) : Raster :=
  match window_filter_2d shape img acc nodata w 9 filt with
  | Except.ok out => out
  | Except.error _ => acc

/-- One smoothing iteration over an explicit list of windows: every window
reads the iteration's input raster `img` and the results accumulate in the
iteration's output raster. The list order stands for the order in which the
worker threads complete the windows. -/
def smoothIterOn (l : List Window) (H W : ℕ) (nodata : ℤ) (filt : Filt)
    (img out0 : Raster) : Raster :=
  l.foldl (windowStep ((H : ℤ), (W : ℤ)) img nodata filt) out0

/-- The three raster files `median_smoothing` works with: the source GeoTIFF
and the two scratch files `*.dirty_1*` / `*.dirty_2*`. -/
inductive BufId
  | src
  | d1
  | d2
deriving DecidableEq, Repr

/-- The mutable state of `median_smoothing`'s iteration loop: the contents of
the three raster files, and which file the variables `img`, `imgout`,
`imgout2` currently name. -/
structure MSState where
  bufs : BufId → Raster
  img : BufId
  imgout : BufId
  imgout2 : BufId

/-- Initial state of `median_smoothing`: `img` is the source raster; the two
scratch rasters are freshly created by `rasterio.open(..., "w+", **img.profile)`
and hold no written data (`blankVal` models the raster store's fill for
never-written pixels). -/
def msInit (input : Raster) (blankVal : ℤ) : MSState :=
  { bufs := fun b => match b with
      | BufId.src => input
      | BufId.d1 => fun _ _ => blankVal
      | BufId.d2 => fun _ _ => blankVal
    img := BufId.src
    imgout := BufId.d1
    imgout2 := BufId.d2 }

/-- The body of `for i in range(smoothing_iterations)`: filter every window of
`l` from `img` into `imgout`, then swap the buffer roles — after the first
iteration `img = imgout; imgout = imgout2`, afterwards `img, imgout = imgout, img`. -/
def iterStepOn (H W : ℕ) (nodata : ℤ) (filt : Filt) (l : List Window)
    (s : MSState) (i : ℕ) : MSState :=
  let newOut := smoothIterOn l H W nodata filt (s.bufs s.img) (s.bufs s.imgout)
  let bufs' : BufId → Raster := fun b => if b = s.imgout then newOut else s.bufs b
  if i = 0 then
    { bufs := bufs', img := s.imgout, imgout := s.imgout2, imgout2 := s.imgout2 }
  else
    { bufs := bufs', img := s.imgout, imgout := s.img, imgout2 := s.imgout2 }

/-- State after the first `n` iterations of the loop, with iteration `i`
processing windows in the order `sched i`. -/
def msStateSched (H W : ℕ) (nodata : ℤ) (filt : Filt) (sched : ℕ → List Window)
    (input : Raster) (blankVal : ℤ) (n : ℕ) : MSState :=
  (List.range n).foldl (fun s i => iterStepOn H W nodata filt (sched i) s i)
    (msInit input blankVal)

/-- The on-disk outcome of `median_smoothing`: the raster placed at
`output_path`, which scratch file was renamed there (`os.replace`), and which
scratch file was deleted (`os.remove`). -/
structure MSResult where
  output : Raster
  outputFrom : BufId
  deleted : BufId

/-- `median_smoothing` with an explicit window completion order per iteration:
run the loop, then — `output_dirty_in`/`output_dirty_out` starting as the
first/second scratch file and swapping when the iteration count is odd —
rename `output_dirty_out` to the output path and remove `output_dirty_in`. -/
def median_smoothing_sched (H W : ℕ) (nodata : ℤ) (filt : Filt)
    (sched : ℕ → List Window) (input : Raster) (blankVal : ℤ) (n : ℕ) : MSResult :=
  let fin := msStateSched H W nodata filt sched input blankVal n
  let fromBuf : BufId := if n % 2 ≠ 0 then BufId.d1 else BufId.d2
  let delBuf : BufId := if n % 2 ≠ 0 then BufId.d2 else BufId.d1
  { output := fin.bufs fromBuf, outputFrom := fromBuf, deleted := delBuf }

/-- `median_smoothing(geotiff_path, output_path, smoothing_iterations=n,
window_size=ws, ...)`: the canonical run, every iteration processing the
window grid in its generated order. -/
def median_smoothing (H W ws : ℕ) (nodata : ℤ) (filt : Filt)
    (input : Raster) (blankVal : ℤ) (n : ℕ) : MSResult :=
  median_smoothing_sched H W nodata filt (fun _ => windowsOf H W ws) input blankVal n

/-- State after `n` canonical iterations (window grid order). -/
def msState (H W ws : ℕ) (nodata : ℤ) (filt : Filt) (input : Raster)
    (blankVal : ℤ) (n : ℕ) : MSState :=
  msStateSched H W nodata filt (fun _ => windowsOf H W ws) input blankVal n

/-- Remainders of `s` after consuming a nonempty run of characters satisfying
`p` — all the ways the regex piece `X+` (for a character class `X`) can match
a prefix of `s`. -/
def plusRemainders (p : Char → Bool) : List Char → List (List Char)
  | [] => []
  | c :: rest => if p c then rest :: plusRemainders p rest else []

/-- Match a literal character sequence at the head of `s`, returning the rest. -/
def litList : List Char → List Char → Option (List Char)
  | [], s => some s
  | _ :: _, [] => none
  | c :: cs, d :: s => if c = d then litList cs s else none

/-- Character class `[\d\.]`. -/
def isDigitOrDot (c : Char) : Bool := c.isDigit || c == '.'

/-- Tail of the tile-name regex from `\d+\.tif` on (after `_y`). -/
def matchFromY (s : List Char) : Bool :=
  (plusRemainders Char.isDigit s).any (fun r => (litList ".tif".data r).isSome)

/-- Tail of the tile-name regex from `\d+_y\d+\.tif` on (after `_x`). -/
def matchFromX (s : List Char) : Bool :=
  (plusRemainders Char.isDigit s).any (fun r =>
    match litList "_y".data r with
    | some r2 => matchFromY r2
    | none => false)

/-- `re.match("^r([\d\.]+)_x\d+_y\d+\.tif", filename) is not None`: the tile
filename test of `create_dem`. `re.match` anchors at the start only, so
trailing characters after `.tif` are accepted. -/
def matchesTilePattern (fname : String) : Bool :=
  match fname.data with
  | 'r' :: rest =>
    (plusRemainders isDigitOrDot rest).any (fun r =>
      match litList "_x".data r with
      | some r2 => matchFromX r2
      | none => false)
  | _ => false

/-- The tile-fetch step of `create_dem`: keep the files in the output
directory whose basename matches the tile pattern; if none matches, raise
`ExitException("No DEM tiles were generated, something went wrong")`. -/
def create_dem_fetch_tiles (present : List String) : Except String (List String) :=
  let tiles := present.filter matchesTilePattern
  if tiles = [] then Except.error "No DEM tiles were generated, something went wrong"
  else Except.ok tiles

/-- A fetched tile of `create_dem`: `{'filename': p, 'radius': float(m.group(1))}`. -/
structure Tile where
  filename : String
  radius : ℚ
deriving DecidableEq, Repr

/-- The sort key relation of `tiles.sort(key=lambda t: float(t['radius']),
reverse=True)`: tile `a` may precede tile `b` when its radius is at least as
large. -/
def tileRadiusGE (a b : Tile) : Prop := b.radius ≤ a.radius

instance : DecidableRel tileRadiusGE := fun a b =>
  inferInstanceAs (Decidable (b.radius ≤ a.radius))

instance : IsTotal Tile tileRadiusGE := ⟨fun a b => le_total b.radius a.radius⟩

instance : IsTrans Tile tileRadiusGE :=
  ⟨fun _ _ _ h1 h2 => le_trans h2 h1⟩

/-- `tiles.sort(key=lambda t: float(t['radius']), reverse=True)`: a stable
descending sort by radius. -/
def sortTiles (tiles : List Tile) : List Tile :=
  List.insertionSort tileRadiusGE tiles

/-- Modelled from the spec: the tile-splitting rule of the TilePlanner
(`num_splits = max(1, ceil(log2(ceil(total_pixels / max_tile_pixels))))`).
The splitting code itself lives in the external `renderdem` renderer and is
not part of this repository's sources. -/
def num_splits (totalPixels maxTilePixels : ℕ) : ℕ :=
  max 1 (Nat.clog 2 (ceilDiv totalPixels maxTilePixels))

/-- Modelled from the spec: `num_splits` is applied uniformly on both axes,
giving `num_splits ^ 2` grid cells per radius. -/
def num_tiles (totalPixels maxTilePixels : ℕ) : ℕ :=
  num_splits totalPixels maxTilePixels ^ 2

/-! Concrete instances used to instantiate the theorems below. -/

/-- A constant raster of value 1. -/
def cOne : Raster := fun _ _ => 1

/-- A constant raster of value 0. -/
def cZero : Raster := fun _ _ => 0

/-- A constant raster of value 7. -/
def cSeven : Raster := fun _ _ => 7

/-- The identity filter (a legitimate instantiation of the abstract kernel). -/
def cIdFilt : Filt := fun _ _ a => a

/-- A 2×2 raster whose (0,0) pixel holds the nodata sentinel -9999. -/
def cNdImg : Raster := fun r c => if r = 0 ∧ c = 0 then -9999 else 5

/-- The window covering a 2×2 raster. -/
def cWin22 : Window := ⟨0, 0, 2, 2⟩

/-! Helper lemmas. -/

/-- For an in-bounds window, `window_filter_2d` succeeds and returns the
`windowApply` update. -/
lemma window_filter_2d_ok {shape : ℤ × ℤ} {w : Window}
    (h : ¬ outOfBounds shape w) (img imgout : Raster) (nodata : ℤ)
    (kernelSize : ℤ) (filt : Filt) :
    window_filter_2d shape img imgout nodata w kernelSize filt =
      Except.ok (windowApply shape img imgout nodata w kernelSize filt) := by
  unfold window_filter_2d
  exact if_neg h

/-- A successful `window_filter_2d` call forces the window in bounds. -/
lemma window_filter_2d_ok_not_oob {shape : ℤ × ℤ} {w : Window}
    {img imgout out : Raster} {nodata kernelSize : ℤ} {filt : Filt}
    (hok : window_filter_2d shape img imgout nodata w kernelSize filt = Except.ok out) :
    ¬ outOfBounds shape w := by
  intro h
  rw [window_filter_2d, if_pos h] at hok
  exact Except.noConfusion hok

/-- For an in-bounds window, a scheduled window task is the `windowApply` update. -/
lemma windowStep_eq {shape : ℤ × ℤ} {w : Window} (h : ¬ outOfBounds shape w)
    (img : Raster) (nodata : ℤ) (filt : Filt) (acc : Raster) :
    windowStep shape img nodata filt acc w =
      windowApply shape img acc nodata w 9 filt := by
  unfold windowStep
  rw [window_filter_2d_ok h]

/-- `a < ⌈H/ws⌉ ↔ a·ws < H` for positive `ws`. -/
lemma lt_ceilDiv_iff {a H ws : ℕ} (hws : 0 < ws) : a < ceilDiv H ws ↔ a * ws < H := by
  unfold ceilDiv
  rw [Nat.lt_iff_add_one_le, Nat.le_div_iff_mul_le hws, Nat.add_mul, Nat.one_mul]
  generalize a * ws = t
  omega

/-- Membership in the window grid of `median_smoothing`. -/
lemma mem_windowsOf {H W ws : ℕ} {w : Window} :
    w ∈ windowsOf H W ws ↔
      ∃ a b : ℕ, a < ceilDiv H ws ∧ b < ceilDiv W ws ∧
        w = ⟨((a * ws : ℕ) : ℤ), ((b * ws : ℕ) : ℤ),
             min (((a * ws : ℕ) : ℤ) + (ws : ℤ)) (H : ℤ),
             min (((b * ws : ℕ) : ℤ) + (ws : ℤ)) (W : ℤ)⟩ := by
  unfold windowsOf
  rw [List.mem_flatMap]
  constructor
  · rintro ⟨c, hc, hw⟩
    rw [List.mem_map] at hw
    obtain ⟨r, hr, rfl⟩ := hw
    unfold arange at hc hr
    rw [List.mem_map] at hc hr
    obtain ⟨b, hb, rfl⟩ := hc
    obtain ⟨a, ha, rfl⟩ := hr
    rw [List.mem_range] at ha hb
    exact ⟨a, b, ha, hb, rfl⟩
  · rintro ⟨a, b, ha, hb, rfl⟩
    refine ⟨b * ws, ?_, ?_⟩
    · unfold arange
      rw [List.mem_map]
      exact ⟨b, List.mem_range.mpr hb, rfl⟩
    · rw [List.mem_map]
      refine ⟨a * ws, ?_, rfl⟩
      unfold arange
      rw [List.mem_map]
      exact ⟨a, List.mem_range.mpr ha, rfl⟩

/-- Every generated window passes the bounds test of `window_filter_2d`. -/
lemma windowsOf_not_oob {H W ws : ℕ} {w : Window} (hw : w ∈ windowsOf H W ws) :
    ¬ outOfBounds ((H : ℤ), (W : ℤ)) w := by
  rcases mem_windowsOf.mp hw with ⟨a, b, _, _, rfl⟩
  unfold outOfBounds
  push_neg
  exact ⟨Int.natCast_nonneg _, Int.natCast_nonneg _, min_le_right _ _, min_le_right _ _⟩

/-- A pixel determines the grid interval it falls into: two generated windows
containing the same pixel are equal. -/
lemma windowsOf_unique {H W ws : ℕ} {w1 w2 : Window}
    (h1 : w1 ∈ windowsOf H W ws) (h2 : w2 ∈ windowsOf H W ws)
    {r c : ℤ} (hin1 : inWindow w1 r c) (hin2 : inWindow w2 r c) : w1 = w2 := by
  rcases mem_windowsOf.mp h1 with ⟨a, b, _, _, rfl⟩
  rcases mem_windowsOf.mp h2 with ⟨a', b', _, _, rfl⟩
  obtain ⟨hra, hrb, hca, hcb⟩ := hin1
  obtain ⟨hra', hrb', hca', hcb'⟩ := hin2
  have key : ∀ (x y : ℕ) (t : ℤ), ((x * ws : ℕ) : ℤ) ≤ t → t < ((x * ws : ℕ) : ℤ) + (ws : ℤ) →
      ((y * ws : ℕ) : ℤ) ≤ t → t < ((y * ws : ℕ) : ℤ) + (ws : ℤ) → x * ws = y * ws := by
    intro x y t hx1 hx2 hy1 hy2
    rcases Nat.lt_trichotomy x y with hlt | heq | hgt
    · exfalso
      have hstep : (x + 1) * ws ≤ y * ws := Nat.mul_le_mul_right ws hlt
      have : ((x * ws : ℕ) : ℤ) + (ws : ℤ) ≤ ((y * ws : ℕ) : ℤ) := by
        push_cast
        push_cast [Nat.add_mul] at hstep
        linarith
      linarith
    · rw [heq]
    · exfalso
      have hstep : (y + 1) * ws ≤ x * ws := Nat.mul_le_mul_right ws hgt
      have : ((y * ws : ℕ) : ℤ) + (ws : ℤ) ≤ ((x * ws : ℕ) : ℤ) := by
        push_cast
        push_cast [Nat.add_mul] at hstep
        linarith
      linarith
  have hr : a * ws = a' * ws :=
    key a a' r hra (lt_of_lt_of_le hrb (min_le_left _ _)) hra' (lt_of_lt_of_le hrb' (min_le_left _ _))
  have hc : b * ws = b' * ws :=
    key b b' c hca (lt_of_lt_of_le hcb (min_le_left _ _)) hca' (lt_of_lt_of_le hcb' (min_le_left _ _))
  rw [hr, hc]

/-- Every in-bounds pixel lies in some generated window. -/
lemma windowsOf_covers {H W ws : ℕ} (hws : 0 < ws) {r c : ℤ}
    (hr0 : 0 ≤ r) (hrH : r < (H : ℤ)) (hc0 : 0 ≤ c) (hcW : c < (W : ℤ)) :
    ∃ w ∈ windowsOf H W ws, inWindow w r c := by
  have hrH' : r.toNat < H := by omega
  have hcW' : c.toNat < W := by omega
  have hrcast : ((r.toNat : ℤ)) = r := Int.toNat_of_nonneg hr0
  have hccast : ((c.toNat : ℤ)) = c := Int.toNat_of_nonneg hc0
  have h1 : r.toNat / ws * ws ≤ r.toNat := Nat.div_mul_le_self _ _
  have h2 : r.toNat < r.toNat / ws * ws + ws := by
    conv_lhs => rw [← Nat.div_add_mod r.toNat ws]
    rw [Nat.mul_comm (r.toNat / ws) ws]
    exact Nat.add_lt_add_left (Nat.mod_lt _ hws) _
  have h3 : c.toNat / ws * ws ≤ c.toNat := Nat.div_mul_le_self _ _
  have h4 : c.toNat < c.toNat / ws * ws + ws := by
    conv_lhs => rw [← Nat.div_add_mod c.toNat ws]
    rw [Nat.mul_comm (c.toNat / ws) ws]
    exact Nat.add_lt_add_left (Nat.mod_lt _ hws) _
  refine ⟨_, mem_windowsOf.mpr ⟨r.toNat / ws, c.toNat / ws, ?_, ?_, rfl⟩, ?_⟩
  · rw [lt_ceilDiv_iff hws]
    exact lt_of_le_of_lt h1 hrH'
  · rw [lt_ceilDiv_iff hws]
    exact lt_of_le_of_lt h3 hcW'
  · unfold inWindow
    dsimp only
    refine ⟨?_, lt_min ?_ hrH, ?_, lt_min ?_ hcW⟩
    · rw [← hrcast]
      exact_mod_cast h1
    · rw [← hrcast]
      exact_mod_cast h2
    · rw [← hccast]
      exact_mod_cast h3
    · rw [← hccast]
      exact_mod_cast h4

/-- Scheduled window tasks over the generated grid commute: distinct windows
write disjoint regions and read only the fixed input raster. -/
lemma windowStep_comm {H W ws : ℕ} {w1 w2 : Window}
    (h1 : w1 ∈ windowsOf H W ws) (h2 : w2 ∈ windowsOf H W ws)
    (img : Raster) (nodata : ℤ) (filt : Filt) (z : Raster) :
    windowStep ((H : ℤ), (W : ℤ)) img nodata filt
      (windowStep ((H : ℤ), (W : ℤ)) img nodata filt z w1) w2 =
    windowStep ((H : ℤ), (W : ℤ)) img nodata filt
      (windowStep ((H : ℤ), (W : ℤ)) img nodata filt z w2) w1 := by
  by_cases heq : w1 = w2
  · rw [heq]
  · have n1 := windowsOf_not_oob h1
    have n2 := windowsOf_not_oob h2
    rw [windowStep_eq n1, windowStep_eq n2, windowStep_eq n2, windowStep_eq n1]
    funext r c
    unfold windowApply
    by_cases i1 : inWindow w1 r c <;> by_cases i2 : inWindow w2 r c
    · exact absurd (windowsOf_unique h1 h2 i1 i2) heq
    · simp [i1, i2]
    · simp [i1, i2]
    · simp [i1, i2]

/-- A smoothing iteration is invariant under the window completion order. -/
lemma smoothIterOn_perm {H W ws : ℕ} {l : List Window}
    (hp : l.Perm (windowsOf H W ws)) (nodata : ℤ) (filt : Filt) (img out0 : Raster) :
    smoothIterOn l H W nodata filt img out0 =
    smoothIterOn (windowsOf H W ws) H W nodata filt img out0 :=
  hp.foldl_eq'
    (fun _ hx _ hy z => windowStep_comm (hp.subset hx) (hp.subset hy) img nodata filt z)
    out0

/-- Inside the window, the value written by `window_filter_2d` for a pixel
that held the nodata sentinel is the nodata sentinel again. -/
lemma windowVal_eq_nodata {shape : ℤ × ℤ} {w : Window} {kernelSize : ℤ}
    (img : Raster) (nodata : ℤ) (filt : Filt)
    (hk : 0 ≤ kernelSize) (hb : ¬ outOfBounds shape w)
    {r c : ℤ} (hin : inWindow w r c) (hnd : img r c = nodata) :
    windowVal shape img nodata w kernelSize filt r c = nodata := by
  obtain ⟨hw0, hw2, hw1, hw3⟩ := hin
  unfold outOfBounds at hb
  push_neg at hb
  obtain ⟨hb0, hb1, hb2, hb3⟩ := hb
  have hh : 0 ≤ halo kernelSize := Int.fdiv_nonneg hk (by norm_num)
  set e := expandedWindow shape w kernelSize with he
  have he0 : e.rowStart ≤ w.rowStart := by
    simp only [he, expandedWindow]
    exact max_le hb0 (by linarith)
  have he1 : e.colStart ≤ w.colStart := by
    simp only [he, expandedWindow]
    exact max_le hb1 (by linarith)
  have he2 : w.rowEnd ≤ e.rowEnd := by
    simp only [he, expandedWindow]
    exact le_min hb2 (by linarith)
  have he3 : w.colEnd ≤ e.colEnd := by
    simp only [he, expandedWindow]
    exact le_min hb3 (by linarith)
  have hcond : 0 ≤ r - e.rowStart ∧ r - e.rowStart < e.rowEnd - e.rowStart ∧
      0 ≤ c - e.colStart ∧ c - e.colStart < e.colEnd - e.colStart :=
    ⟨by linarith, by linarith, by linarith, by linarith⟩
  have hread : readWindow img e (r - e.rowStart) (c - e.colStart) = img r c := by
    unfold readWindow
    rw [if_pos hcond]
    congr 1 <;> ring
  simp only [windowVal]
  rw [← he]
  have hidx1 : r - w.rowStart + (w.rowStart - e.rowStart) = r - e.rowStart := by ring
  have hidx2 : c - w.colStart + (w.colStart - e.colStart) = c - e.colStart := by ring
  rw [hidx1, hidx2, hread, if_pos hnd]

/-- Two input rasters agreeing on the expanded window produce the same read
array. -/
lemma readWindow_congr {img img' : Raster} {e : Window}
    (h : ∀ r c : ℤ, e.rowStart ≤ r → r < e.rowEnd → e.colStart ≤ c → c < e.colEnd →
      img r c = img' r c) :
    readWindow img e = readWindow img' e := by
  funext r c
  unfold readWindow
  by_cases hc2 : 0 ≤ r ∧ r < e.rowEnd - e.rowStart ∧ 0 ≤ c ∧ c < e.colEnd - e.colStart
  · rw [if_pos hc2, if_pos hc2]
    obtain ⟨a1, a2, a3, a4⟩ := hc2
    exact h _ _ (by linarith) (by linarith) (by linarith) (by linarith)
  · rw [if_neg hc2, if_neg hc2]

/-- The written values depend on the input raster only through the expanded
window's read array. -/
lemma windowVal_congr {shape : ℤ × ℤ} {w : Window} {k : ℤ} {img img' : Raster}
    (nodata : ℤ) (filt : Filt)
    (h : readWindow img (expandedWindow shape w k) = readWindow img' (expandedWindow shape w k)) :
    windowVal shape img nodata w k filt = windowVal shape img' nodata w k filt := by
  simp only [windowVal]
  rw [h]

/-- Unfolding one loop iteration of `median_smoothing`. -/
lemma msStateSched_succ (H W : ℕ) (nodata : ℤ) (filt : Filt) (sched : ℕ → List Window)
    (input : Raster) (blankVal : ℤ) (n : ℕ) :
    msStateSched H W nodata filt sched input blankVal (n + 1) =
      iterStepOn H W nodata filt (sched n)
        (msStateSched H W nodata filt sched input blankVal n) n := by
  unfold msStateSched
  rw [List.range_succ, List.foldl_append]
  rfl

/-- In both swap branches the next iteration's input handle is the previous
iteration's output handle. -/
lemma msState_img_succ (H W ws : ℕ) (nodata : ℤ) (filt : Filt)
    (input : Raster) (blankVal : ℤ) (i : ℕ) :
    (msState H W ws nodata filt input blankVal (i + 1)).img =
      (msState H W ws nodata filt input blankVal i).imgout := by
  unfold msState
  rw [msStateSched_succ]
  unfold iterStepOn
  by_cases hi : i = 0 <;> simp [hi]

/-- The next iteration's output handle after the swap. -/
lemma msState_imgout_succ (H W ws : ℕ) (nodata : ℤ) (filt : Filt)
    (input : Raster) (blankVal : ℤ) (i : ℕ) :
    (msState H W ws nodata filt input blankVal (i + 1)).imgout =
      (if i = 0 then (msState H W ws nodata filt input blankVal i).imgout2
       else (msState H W ws nodata filt input blankVal i).img) := by
  unfold msState
  rw [msStateSched_succ]
  unfold iterStepOn
  by_cases hi : i = 0 <;> simp [hi]

/-- The third handle never changes. -/
lemma msState_imgout2_succ (H W ws : ℕ) (nodata : ℤ) (filt : Filt)
    (input : Raster) (blankVal : ℤ) (i : ℕ) :
    (msState H W ws nodata filt input blankVal (i + 1)).imgout2 =
      (msState H W ws nodata filt input blankVal i).imgout2 := by
  unfold msState
  rw [msStateSched_succ]
  unfold iterStepOn
  by_cases hi : i = 0 <;> simp [hi]

/-- Which files the three handle variables name before iteration `i`:
`(src, dirty1, dirty2)` at the start, then alternating `(d1, d2, d2)` after an
even number of completed swaps and `(d2, d1, d2)` after an odd number. -/
lemma msState_handles (H W ws : ℕ) (nodata : ℤ) (filt : Filt)
    (input : Raster) (blankVal : ℤ) (i : ℕ) :
    (msState H W ws nodata filt input blankVal i).img =
      (if i = 0 then BufId.src else if i % 2 = 1 then BufId.d1 else BufId.d2) ∧
    (msState H W ws nodata filt input blankVal i).imgout =
      (if i = 0 then BufId.d1 else if i % 2 = 1 then BufId.d2 else BufId.d1) ∧
    (msState H W ws nodata filt input blankVal i).imgout2 = BufId.d2 := by
  induction i with
  | zero => exact ⟨rfl, rfl, rfl⟩
  | succ i ih =>
    obtain ⟨h1, h2, h3⟩ := ih
    refine ⟨?_, ?_, ?_⟩
    · rw [msState_img_succ, h2]
      rcases Nat.eq_zero_or_pos i with hi | hi
      · subst hi
        norm_num
      · have h0 : ¬ (i = 0) := by omega
        have h0' : ¬ (i + 1 = 0) := by omega
        rcases Nat.mod_two_eq_zero_or_one i with hp | hp
        · have hp' : (i + 1) % 2 = 1 := by omega
          simp [h0, h0', hp, hp']
        · have hp' : ¬ ((i + 1) % 2 = 1) := by omega
          simp [h0, h0', hp, hp']
    · rw [msState_imgout_succ]
      rcases Nat.eq_zero_or_pos i with hi | hi
      · subst hi
        rw [if_pos rfl, h3]
        norm_num
      · have h0 : ¬ (i = 0) := by omega
        have h0' : ¬ (i + 1 = 0) := by omega
        rw [if_neg h0, h1]
        rcases Nat.mod_two_eq_zero_or_one i with hp | hp
        · have hp' : (i + 1) % 2 = 1 := by omega
          simp [h0, h0', hp, hp']
        · have hp' : ¬ ((i + 1) % 2 = 1) := by omega
          simp [h0, h0', hp, hp']
    · rw [msState_imgout2_succ, h3]

/-! Claim theorems. -/

/-- C3: for every window, every (nonnegative) kernel size and every input
array, after a successful `window_filter_2d` run each pixel position of the
written window whose value equalled the nodata sentinel before filtering again
holds exactly the nodata sentinel; the filter output there is discarded. -/
theorem window_filter_2d_preserves_nodata
    (shape : ℤ × ℤ) (img imgout : Raster) (nodata : ℤ) (w : Window)
    (kernelSize : ℤ) (filt : Filt) (out : Raster)
    (hk : 0 ≤ kernelSize)
    (hok : window_filter_2d shape img imgout nodata w kernelSize filt = Except.ok out)
    (r c : ℤ) (hin : inWindow w r c) (hnd : img r c = nodata) :
    out r c = nodata := by
  have hb := window_filter_2d_ok_not_oob hok
  rw [window_filter_2d_ok hb] at hok
  injection hok with hout
  rw [← hout]
  show (if inWindow w r c then windowVal shape img nodata w kernelSize filt r c
        else imgout r c) = nodata
  rw [if_pos hin]
  exact windowVal_eq_nodata img nodata filt hk hb hin hnd

/-- Witness for C3 at a concrete 2×2 raster whose (0,0) pixel is nodata. -/
theorem window_filter_2d_preserves_nodata_witness :
    (0 : ℤ) ≤ 9 ∧
    window_filter_2d ((2 : ℤ), (2 : ℤ)) cNdImg cZero (-9999) cWin22 9 cIdFilt =
      Except.ok (windowApply ((2 : ℤ), (2 : ℤ)) cNdImg cZero (-9999) cWin22 9 cIdFilt) ∧
    inWindow cWin22 0 0 ∧ cNdImg 0 0 = -9999 ∧
    windowApply ((2 : ℤ), (2 : ℤ)) cNdImg cZero (-9999) cWin22 9 cIdFilt 0 0 = -9999 :=
  ⟨by norm_num,
   window_filter_2d_ok (by decide) _ _ _ _ _,
   by decide,
   by decide,
   window_filter_2d_preserves_nodata ((2 : ℤ), (2 : ℤ)) cNdImg cZero (-9999) cWin22 9 cIdFilt _
     (by norm_num) (window_filter_2d_ok (by decide) _ _ _ _ _) 0 0 (by decide) (by decide)⟩

/-- C9: `window_filter_2d` writes back only the unexpanded window (every pixel
outside it keeps the previous output contents), and it reads the input raster
only through the expanded window (padding `floor(kernel_size/2)`, clamped):
two inputs agreeing there produce identical results. -/
theorem window_filter_2d_frame_effect
    (shape : ℤ × ℤ) (img img' imgout : Raster) (nodata : ℤ) (w : Window)
    (kernelSize : ℤ) (filt : Filt) (out out' : Raster)
    (hok : window_filter_2d shape img imgout nodata w kernelSize filt = Except.ok out)
    (hok' : window_filter_2d shape img' imgout nodata w kernelSize filt = Except.ok out')
    (hagree : ∀ r c : ℤ,
      (expandedWindow shape w kernelSize).rowStart ≤ r →
      r < (expandedWindow shape w kernelSize).rowEnd →
      (expandedWindow shape w kernelSize).colStart ≤ c →
      c < (expandedWindow shape w kernelSize).colEnd → img r c = img' r c) :
    (∀ r c : ℤ, ¬ inWindow w r c → out r c = imgout r c) ∧
    (∀ r c : ℤ, out r c = out' r c) := by
  have hb := window_filter_2d_ok_not_oob hok
  rw [window_filter_2d_ok hb] at hok
  rw [window_filter_2d_ok hb] at hok'
  injection hok with hout
  injection hok' with hout'
  rw [← hout, ← hout']
  constructor
  · intro r c hnin
    show (if inWindow w r c then windowVal shape img nodata w kernelSize filt r c
          else imgout r c) = imgout r c
    rw [if_neg hnin]
  · intro r c
    show (if inWindow w r c then windowVal shape img nodata w kernelSize filt r c
          else imgout r c) =
         (if inWindow w r c then windowVal shape img' nodata w kernelSize filt r c
          else imgout r c)
    rw [windowVal_congr nodata filt (readWindow_congr hagree)]

/-- Witness for C9 at a concrete window; the pixel (5,5) outside the window is
untouched. -/
theorem window_filter_2d_frame_effect_witness :
    window_filter_2d ((2 : ℤ), (2 : ℤ)) cNdImg cSeven (-9999) cWin22 9 cIdFilt =
      Except.ok (windowApply ((2 : ℤ), (2 : ℤ)) cNdImg cSeven (-9999) cWin22 9 cIdFilt) ∧
    ¬ inWindow cWin22 5 5 ∧
    windowApply ((2 : ℤ), (2 : ℤ)) cNdImg cSeven (-9999) cWin22 9 cIdFilt 5 5 = cSeven 5 5 :=
  ⟨window_filter_2d_ok (by decide) _ _ _ _ _,
   by decide,
   (window_filter_2d_frame_effect ((2 : ℤ), (2 : ℤ)) cNdImg cNdImg cSeven (-9999) cWin22 9
      cIdFilt _ _
      (window_filter_2d_ok (by decide) _ _ _ _ _)
      (window_filter_2d_ok (by decide) _ _ _ _ _)
      (fun _ _ _ _ _ _ => rfl)).1 5 5 (by decide)⟩

/-- C10: every window of `median_smoothing`'s grid satisfies the bounds test,
so `window_filter_2d` never takes the `Window is out of bounds` branch when
called from `median_smoothing`. -/
theorem median_smoothing_window_bounds_safe (H W ws : ℕ) (_hws : 0 < ws)
    (w : Window) (hw : w ∈ windowsOf H W ws)
    (img imgout : Raster) (nodata : ℤ) (filt : Filt) :
    window_filter_2d ((H : ℤ), (W : ℤ)) img imgout nodata w 9 filt =
      Except.ok (windowApply ((H : ℤ), (W : ℤ)) img imgout nodata w 9 filt) :=
  window_filter_2d_ok (windowsOf_not_oob hw) _ _ _ _ _

/-- Witness for C10 at a concrete 1×1 raster with window size 512. -/
theorem median_smoothing_window_bounds_safe_witness :
    0 < 512 ∧ (⟨0, 0, 1, 1⟩ : Window) ∈ windowsOf 1 1 512 ∧
    window_filter_2d ((1 : ℤ), (1 : ℤ)) cOne cZero (-9999) ⟨0, 0, 1, 1⟩ 9 cIdFilt =
      Except.ok (windowApply ((1 : ℤ), (1 : ℤ)) cOne cZero (-9999) ⟨0, 0, 1, 1⟩ 9 cIdFilt) :=
  ⟨by norm_num, by decide,
   median_smoothing_window_bounds_safe 1 1 512 (by norm_num) _ (by decide)
     cOne cZero (-9999) cIdFilt⟩

/-- C8: for every raster shape and positive window size, the generated windows
stay inside the raster (last row/column truncated, not padded) and partition
the pixel grid — every in-bounds pixel lies in exactly one window. -/
theorem median_smoothing_windows_partition (H W ws : ℕ) (hws : 0 < ws) :
    (∀ w ∈ windowsOf H W ws,
      0 ≤ w.rowStart ∧ 0 ≤ w.colStart ∧ w.rowEnd ≤ (H : ℤ) ∧ w.colEnd ≤ (W : ℤ)) ∧
    (∀ r c : ℤ, 0 ≤ r → r < (H : ℤ) → 0 ≤ c → c < (W : ℤ) →
      ∃! w : Window, w ∈ windowsOf H W ws ∧ inWindow w r c) := by
  constructor
  · intro w hw
    have hb := windowsOf_not_oob hw
    unfold outOfBounds at hb
    push_neg at hb
    exact hb
  · intro r c hr0 hrH hc0 hcW
    obtain ⟨w, hw, hin⟩ := windowsOf_covers hws hr0 hrH hc0 hcW
    exact ⟨w, ⟨hw, hin⟩, fun w' h => windowsOf_unique h.1 hw h.2 hin⟩

/-- Witness for C8 on a 3×3 raster with window size 2. -/
theorem median_smoothing_windows_partition_witness :
    0 < 2 ∧
    ((∀ w ∈ windowsOf 3 3 2,
        0 ≤ w.rowStart ∧ 0 ≤ w.colStart ∧ w.rowEnd ≤ ((3 : ℕ) : ℤ) ∧ w.colEnd ≤ ((3 : ℕ) : ℤ)) ∧
     (∀ r c : ℤ, 0 ≤ r → r < ((3 : ℕ) : ℤ) → 0 ≤ c → c < ((3 : ℕ) : ℤ) →
        ∃! w : Window, w ∈ windowsOf 3 3 2 ∧ inWindow w r c)) :=
  ⟨by norm_num, median_smoothing_windows_partition 3 3 2 (by norm_num)⟩

/-- C4: for a fixed input raster and fixed parameters, `median_smoothing`
produces an identical result for any window completion order (and hence any
worker count — the schedule abstracts which thread finishes which window
when): within an iteration every window reads only the iteration's input
raster and the written windows are pairwise disjoint. -/
theorem median_smoothing_order_independent (H W ws : ℕ) (nodata : ℤ) (filt : Filt)
    (input : Raster) (blankVal : ℤ) (n : ℕ) (sched : ℕ → List Window)
    (hsched : ∀ i, (sched i).Perm (windowsOf H W ws)) :
    median_smoothing_sched H W nodata filt sched input blankVal n =
      median_smoothing H W ws nodata filt input blankVal n := by
  have hstate : ∀ m : ℕ, msStateSched H W nodata filt sched input blankVal m =
      msStateSched H W nodata filt (fun _ => windowsOf H W ws) input blankVal m := by
    intro m
    induction m with
    | zero => rfl
    | succ m ih =>
      rw [msStateSched_succ, msStateSched_succ, ih]
      simp only [iterStepOn]
      rw [smoothIterOn_perm (hsched m)]
  unfold median_smoothing median_smoothing_sched
  rw [hstate n]

/-- Witness for C4: processing the four windows of a 3×3 grid in reversed
order gives the same result as the generated order. -/
theorem median_smoothing_order_independent_witness :
    (∀ i : ℕ, ((fun _ : ℕ => (windowsOf 3 3 2).reverse) i).Perm (windowsOf 3 3 2)) ∧
    median_smoothing_sched 3 3 (-9999) cIdFilt (fun _ => (windowsOf 3 3 2).reverse) cOne 0 2 =
      median_smoothing 3 3 2 (-9999) cIdFilt cOne 0 2 :=
  ⟨fun _ => List.reverse_perm _,
   median_smoothing_order_independent 3 3 2 (-9999) cIdFilt cOne 0 2 _
     (fun _ => List.reverse_perm _)⟩

/-- C5: with at least one iteration, the double-buffer swap makes iteration
k+1 read exactly the buffer iteration k wrote, the first iteration reads the
source raster, and the parity-selected scratch file renamed to the output
path is the one written by the final iteration; the other scratch file is
deleted. -/
theorem median_smoothing_double_buffering (H W ws : ℕ) (nodata : ℤ) (filt : Filt)
    (input : Raster) (blankVal : ℤ) (n : ℕ) (hn : 1 ≤ n) :
    (msState H W ws nodata filt input blankVal 0).img = BufId.src ∧
    (∀ k : ℕ, (msState H W ws nodata filt input blankVal (k + 1)).img =
      (msState H W ws nodata filt input blankVal k).imgout) ∧
    (median_smoothing H W ws nodata filt input blankVal n).outputFrom =
      (msState H W ws nodata filt input blankVal (n - 1)).imgout ∧
    (median_smoothing H W ws nodata filt input blankVal n).output =
      (msState H W ws nodata filt input blankVal n).bufs
        ((msState H W ws nodata filt input blankVal (n - 1)).imgout) ∧
    (median_smoothing H W ws nodata filt input blankVal n).deleted =
      (if (median_smoothing H W ws nodata filt input blankVal n).outputFrom = BufId.d1
       then BufId.d2 else BufId.d1) := by
  have hhandles := (msState_handles H W ws nodata filt input blankVal (n - 1)).2.1
  have hsel : (if n % 2 ≠ 0 then BufId.d1 else BufId.d2) =
      (msState H W ws nodata filt input blankVal (n - 1)).imgout := by
    rw [hhandles]
    rcases Nat.mod_two_eq_zero_or_one n with hp | hp
    · have h1 : ¬ (n % 2 ≠ 0) := by omega
      have h2 : ¬ (n - 1 = 0) := by omega
      have h3 : (n - 1) % 2 = 1 := by omega
      simp [h1, h2, h3]
    · have h1 : (n % 2 ≠ 0) := by omega
      by_cases h2 : n - 1 = 0
      · simp [h1, h2]
      · have h3 : ¬ ((n - 1) % 2 = 1) := by omega
        simp [h1, h2, h3]
  refine ⟨rfl, fun k => msState_img_succ H W ws nodata filt input blankVal k, ?_, ?_, ?_⟩
  · exact hsel
  · show (msState H W ws nodata filt input blankVal n).bufs
        (if n % 2 ≠ 0 then BufId.d1 else BufId.d2) = _
    rw [hsel]
  · show (if n % 2 ≠ 0 then BufId.d2 else BufId.d1) =
      (if (if n % 2 ≠ 0 then BufId.d1 else BufId.d2) = BufId.d1 then BufId.d2 else BufId.d1)
    by_cases h : n % 2 ≠ 0
    · rw [if_pos h, if_pos h, if_pos rfl]
    · rw [if_neg h, if_neg h, if_neg (by decide)]

/-- Witness for C5 with two iterations on a 1×1 raster. -/
theorem median_smoothing_double_buffering_witness :
    1 ≤ 2 ∧
    ((msState 1 1 1 (-9999) cIdFilt cOne 0 0).img = BufId.src ∧
     (∀ k : ℕ, (msState 1 1 1 (-9999) cIdFilt cOne 0 (k + 1)).img =
       (msState 1 1 1 (-9999) cIdFilt cOne 0 k).imgout) ∧
     (median_smoothing 1 1 1 (-9999) cIdFilt cOne 0 2).outputFrom =
       (msState 1 1 1 (-9999) cIdFilt cOne 0 1).imgout ∧
     (median_smoothing 1 1 1 (-9999) cIdFilt cOne 0 2).output =
       (msState 1 1 1 (-9999) cIdFilt cOne 0 2).bufs
         ((msState 1 1 1 (-9999) cIdFilt cOne 0 1).imgout) ∧
     (median_smoothing 1 1 1 (-9999) cIdFilt cOne 0 2).deleted =
       (if (median_smoothing 1 1 1 (-9999) cIdFilt cOne 0 2).outputFrom = BufId.d1
        then BufId.d2 else BufId.d1)) :=
  ⟨by norm_num, median_smoothing_double_buffering 1 1 1 (-9999) cIdFilt cOne 0 2 (by norm_num)⟩

/-- C1 counterexample: with `iterations = 0` the raster placed at the output
path is the never-written second scratch raster, not a copy of the input —
here the input holds 1 everywhere, the output pixel (0,0) reads 0 (the fill of
a freshly created raster). -/
theorem median_smoothing_zero_iterations_differs :
    (median_smoothing 1 1 512 (-9999) cIdFilt cOne 0 0).output 0 0 ≠ cOne 0 0 := by
  decide

/-- C1 amended: `median_smoothing` with `iterations = 0` renames the untouched
second scratch raster to the output path and deletes the first; the output is
the blank fill of a newly created raster, independent of the input. -/
theorem median_smoothing_zero_iterations_blank (H W ws : ℕ) (nodata : ℤ)
    (filt : Filt) (input : Raster) (blankVal : ℤ) :
    (median_smoothing H W ws nodata filt input blankVal 0).output = (fun _ _ => blankVal) ∧
    (median_smoothing H W ws nodata filt input blankVal 0).outputFrom = BufId.d2 ∧
    (median_smoothing H W ws nodata filt input blankVal 0).deleted = BufId.d1 :=
  ⟨rfl, rfl, rfl⟩

/-- C2 counterexample: both names below are valid renderer tile names, yet
when only one of them is present in the output directory `create_dem` does
not raise — the "No DEM tiles were generated" error fires only when no tile
at all matches, so a single missing tile slips through silently. -/
theorem create_dem_missing_tile_not_fatal :
    matchesTilePattern "r1.0_x0_y0.tif" = true ∧
    matchesTilePattern "r1.0_x1_y0.tif" = true ∧
    ¬ ("r1.0_x1_y0.tif" ∈ (["r1.0_x0_y0.tif"] : List String)) ∧
    create_dem_fetch_tiles ["r1.0_x0_y0.tif"] = Except.ok ["r1.0_x0_y0.tif"] :=
  ⟨by decide, by decide, by decide, by rfl⟩

/-- C2 amended: at merge time `create_dem` raises
"No DEM tiles were generated, something went wrong" exactly when no file in
the output directory matches the tile-name pattern; if at least one tile
matches, missing sibling tiles do not cause an error. -/
theorem create_dem_fetch_error_iff_no_tile_matches (present : List String) :
    create_dem_fetch_tiles present =
      Except.error "No DEM tiles were generated, something went wrong" ↔
    present.filter matchesTilePattern = [] := by
  unfold create_dem_fetch_tiles
  by_cases h : present.filter matchesTilePattern = []
  · simp [h]
  · simp [h]

/-- C6: the tile list `create_dem` hands to mosaic composition is sorted by
decreasing radius — the sort permutes the fetched tiles and the radius
sequence of the result is non-increasing (so all larger-radius tiles precede
all smaller-radius ones). -/
theorem create_dem_tiles_sorted_by_decreasing_radius (tiles : List Tile) :
    (sortTiles tiles).Perm tiles ∧
    List.Sorted tileRadiusGE (sortTiles tiles) ∧
    List.Sorted (fun x y : ℚ => y ≤ x) ((sortTiles tiles).map Tile.radius) := by
  refine ⟨List.perm_insertionSort tileRadiusGE tiles,
    List.sorted_insertionSort tileRadiusGE tiles, ?_⟩
  exact List.Pairwise.map Tile.radius (fun _ _ h => h)
    (List.sorted_insertionSort tileRadiusGE tiles)

/-- C7 (spec-modelled): the tile-splitting rule yields `num_splits = 7` and
49 tiles for 1,677,721,600 total pixels at 16,777,216 pixels per tile, and a
single tile whenever the total fits one tile. -/
theorem tile_split_formula :
    num_splits 1677721600 16777216 = 7 ∧
    num_tiles 1677721600 16777216 = 49 ∧
    (∀ totalPixels maxTilePixels : ℕ, 0 < maxTilePixels → totalPixels ≤ maxTilePixels →
      num_splits totalPixels maxTilePixels = 1) := by
  have hceil : ceilDiv 1677721600 16777216 = 100 := by norm_num [ceilDiv]
  have hclog : Nat.clog 2 100 = 7 := by
    have h1 : Nat.clog 2 100 ≤ 7 :=
      (Nat.le_pow_iff_clog_le (by norm_num)).mp (by norm_num)
    have h2 : ¬ (Nat.clog 2 100 ≤ 6) := by
      intro h
      have := (Nat.le_pow_iff_clog_le (b := 2) (by norm_num)).mpr h
      norm_num at this
    omega
  refine ⟨?_, ?_, ?_⟩
  · unfold num_splits
    rw [hceil, hclog]
    decide
  · unfold num_tiles num_splits
    rw [hceil, hclog]
    decide
  · intro totalPixels maxTilePixels hm ht
    unfold num_splits
    have hle : ceilDiv totalPixels maxTilePixels ≤ 1 := by
      unfold ceilDiv
      have hlt : totalPixels + maxTilePixels - 1 < 2 * maxTilePixels := by omega
      have := (Nat.div_lt_iff_lt_mul hm).mpr (by omega :
        totalPixels + maxTilePixels - 1 < 2 * maxTilePixels)
      omega
    rw [Nat.clog_of_right_le_one hle]
    decide

/-- Witness for C7's degenerate case: 5 ≤ 10 total pixels gives one tile. -/
theorem tile_split_formula_witness :
    0 < 10 ∧ 5 ≤ 10 ∧ num_splits 5 10 = 1 :=
  ⟨by norm_num, by norm_num,
   tile_split_formula.2.2 5 10 (by norm_num) (by norm_num)⟩

end Img2Space
